import Mathlib

/-!
Shallow embedding of the DokuMini client-side document archive
(`src/App.js` and its near-duplicate variant), covering the parts the
claims are about: the two-table embedded store (users, documents), the
account service (register / login over a one-way password digest), the
document repository (upload, rename, delete, index queries), the
aggregation pass (per-folder counts, total count, total bytes), the pure
sorting/filtering pipeline, and the byte-size formatter.

Modelling conventions:
- IndexedDB object stores become Lean lists kept in primary-key order;
  the promise-based utility wrappers (`getItem`, `addItem`, `updateItem`,
  `deleteItem`, `getAllItemsByIndex`) become pure functions per table.
- The SHA-256 primitive is supplied by the platform (`crypto.subtle`),
  not by this repository, so the account handlers are parametric in a
  digest function `sha256 : String → String`.
- React state that the claims mention (the persisted `currentUser`
  session slot) is carried in an explicit `AppState`.
- JavaScript truthiness is modelled exactly where it matters: `x || y`
  on a possibly-zero number falls back on `0`, absent values are
  `Option`, and the empty string is falsy.
-/

namespace DokuMini

/-- Record stored in the `users` object store (`{ id: email, email, passwordHash }`). -/
structure StoredUser where
  id : String
  email : String
  passwordHash : String
deriving DecidableEq, Repr

/-- Record stored in the `documents` object store.  `fileData` is the raw
payload delivered by `FileReader.readAsArrayBuffer` (absent for a record
that never had one), `fileSize` is absent on legacy records created
before the field existed. -/
structure Document where
  id : Nat
  userId : String
  folder : String
  fileName : String
  originalFileName : String
  uploadDate : Nat
  fileData : Option (List Nat)
  mimeType : String
  fileSize : Option Nat
deriving DecidableEq, Repr

/-- The two object stores of `DokuMiniDB` plus the auto-increment key
generator of the `documents` store. -/
structure DB where
  users : List StoredUser
  documents : List Document
  nextDocId : Nat
deriving DecidableEq, Repr

/-- The `{ id, email }` value persisted in the `currentUser` session slot. -/
structure SessionUser where
  id : String
  email : String
deriving DecidableEq, Repr

/-- Store state together with the persisted session slot. -/
structure AppState where
  db : DB
  currentUser : Option SessionUser
deriving DecidableEq, Repr

/-- Primary keys of the `documents` store are pairwise distinct (IndexedDB
enforces this through the `id` key path; arbitrary `DB` values of the
embedding do not, so claims about arbitrary store states assume it). -/
def DocIdsUnique (db : DB) : Prop :=
  db.documents.Pairwise (fun a b => a.id ≠ b.id)

/-! ### IndexedDB utility functions, specialised per table -/

/-- Embeds `getItem(USER_STORE, key)`: `store.get(key)` on the `users` table. -/
def getItemUser (db : DB) (key : String) : Option StoredUser :=
  db.users.find? (fun u => u.id == key)

/-- Embeds `addItem(USER_STORE, item)`: `store.add(item)`; `none` models the
`ConstraintError` rejection when the explicit key is already occupied, in
which case the transaction leaves the table unchanged. -/
def addItemUser (db : DB) (item : StoredUser) : Option DB :=
  if db.users.any (fun u => u.id == item.id) then none
  else some { db with users := db.users ++ [item] }

/-- Embeds `addItem(DOC_STORE, item)`: the store assigns the next
auto-increment key (the caller's `id` field is absent in the source, so it
is overwritten here) and resolves with the assigned key. -/
def addItemDoc (db : DB) (item : Document) : Nat × DB :=
  let assigned := db.nextDocId
  (assigned,
    { db with
      documents := db.documents ++ [{ item with id := assigned }]
      nextDocId := assigned + 1 })

/-- Embeds `updateItem(DOC_STORE, item)`: `store.put(item)` updates in place
if the key exists, or adds if it does not. -/
def updateItemDoc (db : DB) (item : Document) : DB :=
  if db.documents.any (fun d => d.id == item.id) then
    { db with documents := db.documents.map (fun d => if d.id == item.id then item else d) }
  else
    { db with documents := db.documents ++ [item] }

/-- Embeds `deleteItem(DOC_STORE, key)`: removes the record with that
primary key; a no-op if the key is absent. -/
def deleteItemDoc (db : DB) (key : Nat) : DB :=
  { db with documents := db.documents.filter (fun d => d.id != key) }

/-- Embeds `getAllItemsByIndex(DOC_STORE, 'userId', IDBKeyRange.only(userId))`. -/
def getAllItemsByUserId (db : DB) (userId : String) : List Document :=
  db.documents.filter (fun d => d.userId == userId)

/-- Embeds `getAllItemsByIndex(DOC_STORE, 'userIdAndFolder',
IDBKeyRange.only([userId, folder]))`. -/
def getAllItemsByUserIdAndFolder (db : DB) (userId folder : String) : List Document :=
  db.documents.filter (fun d => d.userId == userId && d.folder == folder)

/-! ### Account service (`handleRegister`, `handleLogin`) -/

/-- Embeds `handleRegister`: checks existence via `getItem(USER_STORE, email)`,
and only when absent computes the digest and stores `{ id: email, email,
passwordHash }`.  The `Bool` is `true` exactly on the success toast
('Registrasi berhasil!'). -/
def handleRegister (sha256 : String → String) (email password : String)
    (s : AppState) : Bool × AppState :=
  match getItemUser s.db email with
  | some _ => (false, s)
  | none =>
    let passwordHash := sha256 password
    match addItemUser s.db { id := email, email := email, passwordHash := passwordHash } with
    | some db2 => (true, { s with db := db2 })
    | none => (false, s)

/-- Embeds `handleLogin`: fetches the user by email; on a digest match it
builds `{ id, email }`, persists it in the `currentUser` slot and succeeds;
otherwise (absent user or hash mismatch) it fails and writes nothing. -/
def handleLogin (sha256 : String → String) (email password : String)
    (s : AppState) : Bool × AppState :=
  match getItemUser s.db email with
  | some storedUser =>
    if sha256 password == storedUser.passwordHash then
      let loggedInUser : SessionUser := { id := storedUser.id, email := storedUser.email }
      (true, { s with currentUser := some loggedInUser })
    else
      (false, s)
  | none => (false, s)

/-! ### Helper lemmas about the users table -/

theorem find?_append_of_eq_none {p : StoredUser → Bool} {l : List StoredUser}
    (h : l.find? p = none) (x : StoredUser) :
    (l ++ [x]).find? p = if p x then some x else none := by
  induction l with
  | nil =>
    simp only [List.nil_append, List.find?_cons, List.find?_nil]
    rcases hpx : p x with _ | _ <;> simp [hpx]
  | cons a t ih =>
    rw [List.find?_cons] at h
    rcases hpa : p a with _ | _
    · rw [hpa] at h
      simp only [List.cons_append, List.find?_cons, hpa]
      exact ih h
    · rw [hpa] at h; cases h

theorem any_eq_false_of_find?_eq_none {p : StoredUser → Bool} {l : List StoredUser}
    (h : l.find? p = none) : l.any p = false := by
  rw [List.any_eq_false]
  intro x hx
  intro hpx
  rcases List.find?_isSome.mpr ⟨x, hx, hpx⟩ with hsome
  rw [h] at hsome
  cases hsome

/-! ### Claims C1, C7, C8: account service -/

/-- C1: for every digest function, email and password, starting from a store
with no user keyed by that email, `handleRegister` succeeds and stores the
user `{ id: email, email, passwordHash: sha256 password }`, and a subsequent
`handleLogin` with the same credentials finds that user, matches the
recomputed digest against the stored `passwordHash`, and persists a session
user whose `id` and `email` both equal the registered email. -/
theorem register_then_login_succeeds (sha256 : String → String) (email password : String)
    (s : AppState) (h : getItemUser s.db email = none) :
    ∃ s1 : AppState,
      handleRegister sha256 email password s = (true, s1) ∧
      getItemUser s1.db email =
        some { id := email, email := email, passwordHash := sha256 password } ∧
      handleLogin sha256 email password s1 =
        (true, { s1 with currentUser := some { id := email, email := email } }) := by
  have hany : s.db.users.any (fun u => u.id == email) = false :=
    any_eq_false_of_find?_eq_none h
  refine ⟨{ s with db := { s.db with users :=
      s.db.users ++ [{ id := email, email := email, passwordHash := sha256 password }] } },
      ?_, ?_, ?_⟩
  · simp only [handleRegister, h, addItemUser, hany, Bool.false_eq_true, if_false]
  · show (s.db.users ++ [_]).find? _ = _
    rw [find?_append_of_eq_none h]
    simp
  · show handleLogin _ _ _ _ = _
    unfold handleLogin
    show (match (s.db.users ++ [_]).find? _ with
      | some storedUser => _ | none => _) = _
    rw [find?_append_of_eq_none h]
    simp

/-- Witness for C1 at a concrete input: the identity digest, an empty store,
email `a@b.c` and password `pw`. -/
theorem register_then_login_succeeds_witness :
    getItemUser (DB.mk [] [] 1) "a@b.c" = none ∧
    handleRegister (fun pw => pw) "a@b.c" "pw" (AppState.mk (DB.mk [] [] 1) none) =
      (true, AppState.mk (DB.mk [⟨"a@b.c", "a@b.c", "pw"⟩] [] 1) none) ∧
    handleLogin (fun pw => pw) "a@b.c" "pw"
        (AppState.mk (DB.mk [⟨"a@b.c", "a@b.c", "pw"⟩] [] 1) none) =
      (true, AppState.mk (DB.mk [⟨"a@b.c", "a@b.c", "pw"⟩] [] 1)
        (some ⟨"a@b.c", "a@b.c"⟩)) := by
  obtain ⟨s1, h1, h2, h3⟩ := register_then_login_succeeds (fun pw => pw) "a@b.c" "pw"
    (AppState.mk (DB.mk [] [] 1) none) rfl
  have h0 : handleRegister (fun pw => pw) "a@b.c" "pw" (AppState.mk (DB.mk [] [] 1) none) =
      (true, AppState.mk (DB.mk [⟨"a@b.c", "a@b.c", "pw"⟩] [] 1) none) := by decide
  have hs1 : s1 = AppState.mk (DB.mk [⟨"a@b.c", "a@b.c", "pw"⟩] [] 1) none := by
    rw [h0] at h1
    injection h1 with _ h
    exact h.symm
  rw [hs1] at h3
  exact ⟨rfl, h0, h3⟩

/-- C7: for every password and every store already containing a user keyed by
the email, `handleRegister` fails, stores nothing and leaves the whole state
(in particular the users table) unchanged; the existence check is the
`getItem` on the users table, performed before any write. -/
theorem register_duplicate_rejected (sha256 : String → String) (email password : String)
    (s : AppState) (u : StoredUser) (h : getItemUser s.db email = some u) :
    handleRegister sha256 email password s = (false, s) := by
  simp [handleRegister, h]

/-- Witness for C7: a store holding the user `a@b.c`; a second registration
with a different password is rejected and the state is untouched. -/
theorem register_duplicate_rejected_witness :
    getItemUser (AppState.mk (DB.mk [⟨"a@b.c", "a@b.c", "h1"⟩] [] 1) none).db "a@b.c" =
      some ⟨"a@b.c", "a@b.c", "h1"⟩ ∧
    handleRegister (fun pw => pw) "a@b.c" "other"
        (AppState.mk (DB.mk [⟨"a@b.c", "a@b.c", "h1"⟩] [] 1) none) =
      (false, AppState.mk (DB.mk [⟨"a@b.c", "a@b.c", "h1"⟩] [] 1) none) :=
  ⟨by decide,
    register_duplicate_rejected (fun pw => pw) "a@b.c" "other" _ ⟨"a@b.c", "a@b.c", "h1"⟩
      (by decide)⟩

/-- C8: `handleLogin` fails whenever no user is stored under the email, or
the stored user's `passwordHash` differs from the digest of the supplied
password; in both cases the state — including the `currentUser` session
slot — is unchanged. -/
theorem login_fails_on_bad_credentials (sha256 : String → String) (email password : String)
    (s : AppState)
    (h : getItemUser s.db email = none ∨
      ∃ u, getItemUser s.db email = some u ∧ sha256 password ≠ u.passwordHash) :
    handleLogin sha256 email password s = (false, s) := by
  rcases h with h | ⟨u, hu, hne⟩
  · simp [handleLogin, h]
  · simp [handleLogin, hu, beq_iff_eq, hne]

/-- Witness for C8: wrong password against a stored user (hash mismatch for
the identity digest). -/
theorem login_fails_on_bad_credentials_witness :
    getItemUser (DB.mk [⟨"a@b.c", "a@b.c", "pw"⟩] [] 1) "a@b.c" =
      some ⟨"a@b.c", "a@b.c", "pw"⟩ ∧
    (fun pw => pw) "wrong" ≠ ("pw" : String) ∧
    handleLogin (fun pw => pw) "a@b.c" "wrong"
        (AppState.mk (DB.mk [⟨"a@b.c", "a@b.c", "pw"⟩] [] 1) none) =
      (false, AppState.mk (DB.mk [⟨"a@b.c", "a@b.c", "pw"⟩] [] 1) none) :=
  ⟨by decide, by decide,
    login_fails_on_bad_credentials (fun pw => pw) "a@b.c" "wrong" _
      (Or.inr ⟨⟨"a@b.c", "a@b.c", "pw"⟩, by decide, by decide⟩)⟩

/-! ### Aggregation engine (`updateAllCounts`) -/

/-- Embeds `doc.fileData ? doc.fileData.byteLength : 0`. -/
def fileDataByteLength (d : Document) : Nat :=
  match d.fileData with
  | some bs => bs.length
  | none => 0

/-- Embeds `doc.fileSize || (doc.fileData ? doc.fileData.byteLength : 0)`:
JavaScript `||` falls back both when `fileSize` is absent and when it is
the (falsy) number `0`. -/
def docSizeContribution (d : Document) : Nat :=
  match d.fileSize with
  | some n => if n = 0 then fileDataByteLength d else n
  | none => fileDataByteLength d

/-- The `{ Pendidikan: 0, Pribadi: 0, Lainnya: 0 }` counts object. -/
structure FolderCounts where
  pendidikan : Nat
  pribadi : Nat
  lainnya : Nat
deriving DecidableEq, Repr

/-- Embeds `if (counts.hasOwnProperty(doc.folder)) counts[doc.folder]++`:
only the three enumerated folders are counted. -/
def countsAdd (c : FolderCounts) (d : Document) : FolderCounts :=
  if d.folder == "Pendidikan" then { c with pendidikan := c.pendidikan + 1 }
  else if d.folder == "Pribadi" then { c with pribadi := c.pribadi + 1 }
  else if d.folder == "Lainnya" then { c with lainnya := c.lainnya + 1 }
  else c

/-- The three derived statistics `updateAllCounts` writes into React state. -/
structure Aggregates where
  counts : FolderCounts
  totalDocsCount : Nat
  totalStorageUsed : Nat
deriving DecidableEq, Repr

/-- Embeds the `updateAllCounts` effect body: one `forEach` pass over
`getAllItemsByIndex(DOC_STORE, 'userId', ...)` accumulating the per-folder
counts and the total size, then the list length as the total count. -/
def updateAllCounts (db : DB) (userId : String) : Aggregates :=
  let allUserDocs := getAllItemsByUserId db userId
  let acc := allUserDocs.foldl
    (fun (acc : FolderCounts × Nat) doc => (countsAdd acc.1 doc, acc.2 + docSizeContribution doc))
    (⟨0, 0, 0⟩, 0)
  { counts := acc.1, totalDocsCount := allUserDocs.length, totalStorageUsed := acc.2 }

/-- Effective document size in the words of the amended claim C2:
`fileSize`, falling back to the payload byte length when `fileSize` is
absent or zero. -/
def effectiveSizeSpec (d : Document) : Nat :=
  match d.fileSize with
  | some n => if n = 0 then fileDataByteLength d else n
  | none => fileDataByteLength d

/-- Document size in the words of the original claim C2: `fileSize`,
falling back to the payload byte length only when `fileSize` is absent. -/
def claimSizeC2 (d : Document) : Nat :=
  match d.fileSize with
  | some n => n
  | none => fileDataByteLength d

theorem docSizeContribution_eq_effectiveSizeSpec (d : Document) :
    docSizeContribution d = effectiveSizeSpec d := rfl

theorem countsAdd_pendidikan (c : FolderCounts) (d : Document) :
    (countsAdd c d).pendidikan =
      c.pendidikan + (if d.folder == "Pendidikan" then 1 else 0) := by
  by_cases h1 : d.folder = "Pendidikan"
  · simp [countsAdd, h1]
  · by_cases h2 : d.folder = "Pribadi"
    · simp [countsAdd, h1, h2]
    · by_cases h3 : d.folder = "Lainnya"
      · simp [countsAdd, h1, h2, h3]
      · simp [countsAdd, h1, h2, h3]

theorem countsAdd_pribadi (c : FolderCounts) (d : Document) :
    (countsAdd c d).pribadi =
      c.pribadi + (if d.folder == "Pribadi" then 1 else 0) := by
  by_cases h1 : d.folder = "Pendidikan"
  · simp [countsAdd, h1]
  · by_cases h2 : d.folder = "Pribadi"
    · simp [countsAdd, h1, h2]
    · by_cases h3 : d.folder = "Lainnya"
      · simp [countsAdd, h1, h2, h3]
      · simp [countsAdd, h1, h2, h3]

theorem countsAdd_lainnya (c : FolderCounts) (d : Document) :
    (countsAdd c d).lainnya =
      c.lainnya + (if d.folder == "Lainnya" then 1 else 0) := by
  by_cases h1 : d.folder = "Pendidikan"
  · simp [countsAdd, h1]
  · by_cases h2 : d.folder = "Pribadi"
    · simp [countsAdd, h1, h2]
    · by_cases h3 : d.folder = "Lainnya"
      · simp [countsAdd, h1, h2, h3]
      · simp [countsAdd, h1, h2, h3]

theorem foldl_counts_spec (l : List Document) (c : FolderCounts) (n : Nat) :
    l.foldl
      (fun (acc : FolderCounts × Nat) doc =>
        (countsAdd acc.1 doc, acc.2 + docSizeContribution doc)) (c, n) =
      (⟨c.pendidikan + l.countP (fun d => d.folder == "Pendidikan"),
        c.pribadi + l.countP (fun d => d.folder == "Pribadi"),
        c.lainnya + l.countP (fun d => d.folder == "Lainnya")⟩,
        n + (l.map docSizeContribution).sum) := by
  induction l generalizing c n with
  | nil => simp
  | cons d t ih =>
    simp only [List.foldl_cons, ih, List.countP_cons, List.map_cons, List.sum_cons,
      Prod.mk.injEq, FolderCounts.mk.injEq]
    refine ⟨⟨?_, ?_, ?_⟩, ?_⟩
    · rw [countsAdd_pendidikan]; omega
    · rw [countsAdd_pribadi]; omega
    · rw [countsAdd_lainnya]; omega
    · omega

theorem updateAllCounts_eq (db : DB) (userId : String) :
    updateAllCounts db userId =
      { counts :=
          ⟨(getAllItemsByUserId db userId).countP (fun d => d.folder == "Pendidikan"),
            (getAllItemsByUserId db userId).countP (fun d => d.folder == "Pribadi"),
            (getAllItemsByUserId db userId).countP (fun d => d.folder == "Lainnya")⟩,
        totalDocsCount := (getAllItemsByUserId db userId).length,
        totalStorageUsed := ((getAllItemsByUserId db userId).map docSizeContribution).sum } := by
  simp only [updateAllCounts, foldl_counts_spec, Nat.zero_add]

theorem countP_three_folders (l : List Document)
    (hf : ∀ d ∈ l, d.folder = "Pendidikan" ∨ d.folder = "Pribadi" ∨ d.folder = "Lainnya") :
    l.countP (fun d => d.folder == "Pendidikan") + l.countP (fun d => d.folder == "Pribadi")
      + l.countP (fun d => d.folder == "Lainnya") = l.length := by
  induction l with
  | nil => rfl
  | cons d t ih =>
    have hd := hf d (List.mem_cons_self d t)
    have ht := ih (fun x hx => hf x (List.mem_cons_of_mem d hx))
    have e12 : (("Pendidikan" : String) == "Pribadi") = false := by decide
    have e13 : (("Pendidikan" : String) == "Lainnya") = false := by decide
    have e21 : (("Pribadi" : String) == "Pendidikan") = false := by decide
    have e23 : (("Pribadi" : String) == "Lainnya") = false := by decide
    have e31 : (("Lainnya" : String) == "Pendidikan") = false := by decide
    have e32 : (("Lainnya" : String) == "Pribadi") = false := by decide
    simp only [List.countP_cons, List.length_cons]
    rcases hd with h | h | h <;>
      simp [h, e12, e13, e21, e23, e31, e32] <;> omega

/-- C2 (amended): for every user whose documents all carry one of the three
enumerated folders, one `updateAllCounts` pass yields a total count equal to
the number of the user's documents, per-folder counts that are exactly the
per-folder list lengths and sum to the total, and a total-bytes figure
equal to the sum of each document's `fileSize`, falling back to the payload
byte length when `fileSize` is absent **or zero** (the amendment: the code's
JavaScript `||` also falls back on a stored `fileSize` of `0`). -/
theorem updateAllCounts_correct (db : DB) (userId : String)
    (hf : ∀ d ∈ getAllItemsByUserId db userId,
      d.folder = "Pendidikan" ∨ d.folder = "Pribadi" ∨ d.folder = "Lainnya") :
    (updateAllCounts db userId).totalDocsCount = (getAllItemsByUserId db userId).length ∧
    (updateAllCounts db userId).counts.pendidikan =
      ((getAllItemsByUserId db userId).filter (fun d => d.folder == "Pendidikan")).length ∧
    (updateAllCounts db userId).counts.pribadi =
      ((getAllItemsByUserId db userId).filter (fun d => d.folder == "Pribadi")).length ∧
    (updateAllCounts db userId).counts.lainnya =
      ((getAllItemsByUserId db userId).filter (fun d => d.folder == "Lainnya")).length ∧
    (updateAllCounts db userId).counts.pendidikan + (updateAllCounts db userId).counts.pribadi
        + (updateAllCounts db userId).counts.lainnya
      = (updateAllCounts db userId).totalDocsCount ∧
    (updateAllCounts db userId).totalStorageUsed =
      ((getAllItemsByUserId db userId).map effectiveSizeSpec).sum := by
  rw [updateAllCounts_eq]
  dsimp only
  refine ⟨rfl, ?_, ?_, ?_, ?_, ?_⟩
  · exact List.countP_eq_length_filter _ _
  · exact List.countP_eq_length_filter _ _
  · exact List.countP_eq_length_filter _ _
  · exact countP_three_folders _ hf
  · show (List.map docSizeContribution _).sum = _
    congr 1

/-- Document with a stored `fileSize` of `0` yet a non-empty payload; it
refutes claim C2 as stated: the aggregation pass charges 1 byte for it
(JavaScript `||` falls back on the falsy `0`), while the claimed sum of
`fileSize` with fallback only on absence is 0. -/
def exDocC2 : Document :=
  { id := 1, userId := "u", folder := "Pribadi", fileName := "f", originalFileName := "f",
    uploadDate := 0, fileData := some [7], mimeType := "t", fileSize := some 0 }

/-- Store containing only `exDocC2`. -/
def exDbC2 : DB := { users := [], documents := [exDocC2], nextDocId := 2 }

/-- Counterexample to C2 as stated: every document of the user carries an
enumerated folder (the claim's hypothesis holds), yet the computed total
bytes is 1 while the claim's `fileSize`-with-fallback-on-absence sum is 0. -/
theorem updateAllCounts_claim_counterexample :
    (∀ d ∈ getAllItemsByUserId exDbC2 "u",
      d.folder = "Pendidikan" ∨ d.folder = "Pribadi" ∨ d.folder = "Lainnya") ∧
    ((getAllItemsByUserId exDbC2 "u").map claimSizeC2).sum = 0 ∧
    (updateAllCounts exDbC2 "u").totalStorageUsed = 1 := by
  refine ⟨?_, by decide, by decide⟩
  intro d hd
  have : d = exDocC2 := by
    simpa [getAllItemsByUserId, exDbC2, exDocC2] using hd
  rw [this]
  right; left; rfl

/-- Witness for C2 at the concrete store `exDbC2` (hypothesis discharged by
evaluation). -/
theorem updateAllCounts_correct_witness :
    (updateAllCounts exDbC2 "u").totalDocsCount = (getAllItemsByUserId exDbC2 "u").length ∧
    (updateAllCounts exDbC2 "u").counts.pendidikan =
      ((getAllItemsByUserId exDbC2 "u").filter (fun d => d.folder == "Pendidikan")).length ∧
    (updateAllCounts exDbC2 "u").counts.pribadi =
      ((getAllItemsByUserId exDbC2 "u").filter (fun d => d.folder == "Pribadi")).length ∧
    (updateAllCounts exDbC2 "u").counts.lainnya =
      ((getAllItemsByUserId exDbC2 "u").filter (fun d => d.folder == "Lainnya")).length ∧
    (updateAllCounts exDbC2 "u").counts.pendidikan + (updateAllCounts exDbC2 "u").counts.pribadi
        + (updateAllCounts exDbC2 "u").counts.lainnya
      = (updateAllCounts exDbC2 "u").totalDocsCount ∧
    (updateAllCounts exDbC2 "u").totalStorageUsed =
      ((getAllItemsByUserId exDbC2 "u").map effectiveSizeSpec).sum :=
  updateAllCounts_correct exDbC2 "u" (by decide)

/-! ### Document deletion (`handleDeleteDocument`) — claims C3 and C10 -/

/-- Embeds `handleDeleteDocument(docId)` with the confirm dialog accepted:
the variant first requires a logged-in user (`if (!user) return`), then the
store effect is an unconditional `deleteItem(DOC_STORE, docId)` by primary
key.  The `Bool` is `true` exactly on the success toast. -/
def handleDeleteDocument (user : Option SessionUser) (docId : Nat) (db : DB) : Bool × DB :=
  match user with
  | none => (false, db)
  | some _ => (true, deleteItemDoc db docId)

/-- Projection of the counts object at a folder name (`counts[folder]`);
`0` for a name outside the enumeration. -/
def folderCountOf (c : FolderCounts) (folder : String) : Nat :=
  if folder == "Pendidikan" then c.pendidikan
  else if folder == "Pribadi" then c.pribadi
  else if folder == "Lainnya" then c.lainnya
  else 0

theorem folderCountOf_pendidikan (c : FolderCounts) :
    folderCountOf c "Pendidikan" = c.pendidikan := by
  unfold folderCountOf
  rw [if_pos (by decide)]

theorem folderCountOf_pribadi (c : FolderCounts) :
    folderCountOf c "Pribadi" = c.pribadi := by
  unfold folderCountOf
  rw [if_neg (by decide), if_pos (by decide)]

theorem folderCountOf_lainnya (c : FolderCounts) :
    folderCountOf c "Lainnya" = c.lainnya := by
  unfold folderCountOf
  rw [if_neg (by decide), if_neg (by decide), if_pos (by decide)]

theorem getAllItemsByUserId_delete (db : DB) (key : Nat) (userId : String) :
    getAllItemsByUserId (deleteItemDoc db key) userId =
      (getAllItemsByUserId db userId).filter (fun x => x.id != key) := by
  simp only [getAllItemsByUserId, deleteItemDoc, List.filter_filter]
  congr 1
  funext a
  exact Bool.and_comm _ _

theorem mem_deleteItemDoc_ne (db : DB) (key : Nat) :
    ∀ x ∈ (deleteItemDoc db key).documents, x.id ≠ key := by
  intro x hx
  have := (List.mem_filter.mp hx).2
  simpa using this

theorem filter_eq_append_of_mem_unique {l : List Document} {d : Document}
    (hmem : d ∈ l) (huniq : l.Pairwise (fun a b => a.id ≠ b.id)) :
    ∃ l₁ l₂, l = l₁ ++ d :: l₂ ∧ l.filter (fun x => x.id != d.id) = l₁ ++ l₂ := by
  obtain ⟨l₁, l₂, rfl⟩ := List.append_of_mem hmem
  refine ⟨l₁, l₂, rfl, ?_⟩
  rw [List.pairwise_append] at huniq
  obtain ⟨_, hpair₂, hcross⟩ := huniq
  have h₁ : ∀ x ∈ l₁, (x.id != d.id) = true := by
    intro x hx
    simpa using hcross x hx d (List.mem_cons_self d l₂)
  have h₂ : ∀ x ∈ l₂, (x.id != d.id) = true := by
    intro x hx
    have := (List.pairwise_cons.mp hpair₂).1 x hx
    simpa using Ne.symm this
  rw [List.filter_append, List.filter_cons]
  simp only [bne_self_eq_false, Bool.false_eq_true, if_false]
  rw [List.filter_eq_self.mpr h₁, List.filter_eq_self.mpr h₂]

theorem countP_append_cons_of_neg {p : Document → Bool} (l₁ l₂ : List Document)
    {d : Document} (hpd : p d = false) :
    (l₁ ++ d :: l₂).countP p = (l₁ ++ l₂).countP p := by
  simp [List.countP_append, List.countP_cons, hpd]

theorem countP_append_cons_of_pos {p : Document → Bool} (l₁ l₂ : List Document)
    {d : Document} (hpd : p d = true) :
    (l₁ ++ d :: l₂).countP p = (l₁ ++ l₂).countP p + 1 := by
  simp [List.countP_append, List.countP_cons, hpd]
  omega

/-- C3 (amended): deleting a stored document by its id removes it from all
subsequent `listAll` and `listByFolder` results; the recomputed aggregates
drop by exactly one on the total count and on the document's folder count,
and by exactly the document's effective size (`fileSize`, falling back to
the payload byte length when `fileSize` is absent or zero — the amendment:
the claim said 'exactly d's fileSize', but the code's JavaScript `||` uses
the fallback also for a stored `fileSize` of `0`) on the total bytes; every
other record survives unchanged, none is added, and the users table is
untouched. -/
theorem delete_document_effect (db : DB) (su : SessionUser) (d : Document)
    (huniq : DocIdsUnique db) (hmem : d ∈ db.documents)
    (hfolder : d.folder = "Pendidikan" ∨ d.folder = "Pribadi" ∨ d.folder = "Lainnya") :
    d ∉ getAllItemsByUserId (handleDeleteDocument (some su) d.id db).2 d.userId ∧
    d ∉ getAllItemsByUserIdAndFolder (handleDeleteDocument (some su) d.id db).2
        d.userId d.folder ∧
    (∀ x ∈ db.documents, x.id ≠ d.id →
      x ∈ (handleDeleteDocument (some su) d.id db).2.documents) ∧
    (∀ x ∈ (handleDeleteDocument (some su) d.id db).2.documents,
      x ∈ db.documents ∧ x.id ≠ d.id) ∧
    (handleDeleteDocument (some su) d.id db).2.users = db.users ∧
    (updateAllCounts (handleDeleteDocument (some su) d.id db).2 d.userId).totalDocsCount + 1 =
      (updateAllCounts db d.userId).totalDocsCount ∧
    (updateAllCounts (handleDeleteDocument (some su) d.id db).2 d.userId).totalStorageUsed
        + effectiveSizeSpec d =
      (updateAllCounts db d.userId).totalStorageUsed ∧
    folderCountOf
        (updateAllCounts (handleDeleteDocument (some su) d.id db).2 d.userId).counts d.folder
        + 1 =
      folderCountOf (updateAllCounts db d.userId).counts d.folder ∧
    (∀ f, f ≠ d.folder →
      folderCountOf
          (updateAllCounts (handleDeleteDocument (some su) d.id db).2 d.userId).counts f =
        folderCountOf (updateAllCounts db d.userId).counts f) := by
  have hdb2 : (handleDeleteDocument (some su) d.id db).2 = deleteItemDoc db d.id := rfl
  rw [hdb2]
  have hu_l : (getAllItemsByUserId db d.userId).Pairwise (fun a b => a.id ≠ b.id) :=
    List.Pairwise.sublist (List.filter_sublist _) huniq
  have hd_l : d ∈ getAllItemsByUserId db d.userId :=
    List.mem_filter.mpr ⟨hmem, by simp⟩
  obtain ⟨l₁, l₂, hbefore, hfilter⟩ := filter_eq_append_of_mem_unique hd_l hu_l
  have hafter : getAllItemsByUserId (deleteItemDoc db d.id) d.userId = l₁ ++ l₂ := by
    rw [getAllItemsByUserId_delete]
    exact hfilter
  refine ⟨?_, ?_, ?_, ?_, rfl, ?_, ?_, ?_, ?_⟩
  · intro hd
    exact mem_deleteItemDoc_ne db d.id d (List.mem_filter.mp hd).1 rfl
  · intro hd
    exact mem_deleteItemDoc_ne db d.id d (List.mem_filter.mp hd).1 rfl
  · intro x hx hne
    exact List.mem_filter.mpr ⟨hx, by simpa using hne⟩
  · intro x hx
    have := List.mem_filter.mp hx
    exact ⟨this.1, by simpa using this.2⟩
  · rw [updateAllCounts_eq, updateAllCounts_eq]
    dsimp only
    rw [hafter, hbefore]
    simp [List.length_append]
    omega
  · rw [updateAllCounts_eq, updateAllCounts_eq]
    dsimp only
    rw [hafter, hbefore]
    simp only [List.map_append, List.sum_append, List.map_cons, List.sum_cons,
      docSizeContribution_eq_effectiveSizeSpec]
    omega
  · rw [updateAllCounts_eq, updateAllCounts_eq]
    dsimp only
    rcases hfolder with h | h | h
    · rw [h, folderCountOf_pendidikan, folderCountOf_pendidikan]
      dsimp only
      rw [hafter, hbefore, countP_append_cons_of_pos _ _ (by simp [h])]
    · rw [h, folderCountOf_pribadi, folderCountOf_pribadi]
      dsimp only
      rw [hafter, hbefore, countP_append_cons_of_pos _ _ (by simp [h])]
    · rw [h, folderCountOf_lainnya, folderCountOf_lainnya]
      dsimp only
      rw [hafter, hbefore, countP_append_cons_of_pos _ _ (by simp [h])]
  · intro f hf
    rw [updateAllCounts_eq, updateAllCounts_eq]
    dsimp only
    have hne : ∀ g : String, f = g → (d.folder == g) = false := by
      intro g hg
      exact beq_eq_false_iff_ne.mpr fun hh => hf (by rw [hg, hh])
    by_cases h1 : f = "Pendidikan"
    · rw [h1, folderCountOf_pendidikan, folderCountOf_pendidikan]
      dsimp only
      rw [hafter, hbefore, countP_append_cons_of_neg _ _ (hne _ h1)]
    · by_cases h2 : f = "Pribadi"
      · rw [h2, folderCountOf_pribadi, folderCountOf_pribadi]
        dsimp only
        rw [hafter, hbefore, countP_append_cons_of_neg _ _ (hne _ h2)]
      · by_cases h3 : f = "Lainnya"
        · rw [h3, folderCountOf_lainnya, folderCountOf_lainnya]
          dsimp only
          rw [hafter, hbefore, countP_append_cons_of_neg _ _ (hne _ h3)]
        · simp [folderCountOf, h1, h2, h3]

/-- Counterexample to C3 as stated: deleting `exDocC2` (stored `fileSize`
of `0`, payload of one byte) decrements the total-bytes aggregate by 1,
not by its `fileSize` of 0. -/
theorem delete_decrement_claim_counterexample :
    exDocC2.fileSize = some 0 ∧
    (updateAllCounts exDbC2 "u").totalStorageUsed = 1 ∧
    (updateAllCounts (handleDeleteDocument (some ⟨"u", "u"⟩) exDocC2.id exDbC2).2
      "u").totalStorageUsed = 0 := by
  decide

/-- Witness for C3 (the aggregate-delta conjuncts) at the concrete store
`exDbC2` and its single document. -/
theorem delete_document_effect_witness :
    (updateAllCounts (handleDeleteDocument (some ⟨"u", "u"⟩) exDocC2.id exDbC2).2
        exDocC2.userId).totalDocsCount + 1 =
      (updateAllCounts exDbC2 exDocC2.userId).totalDocsCount ∧
    (updateAllCounts (handleDeleteDocument (some ⟨"u", "u"⟩) exDocC2.id exDbC2).2
          exDocC2.userId).totalStorageUsed + effectiveSizeSpec exDocC2 =
      (updateAllCounts exDbC2 exDocC2.userId).totalStorageUsed ∧
    folderCountOf
        (updateAllCounts (handleDeleteDocument (some ⟨"u", "u"⟩) exDocC2.id exDbC2).2
          exDocC2.userId).counts exDocC2.folder + 1 =
      folderCountOf (updateAllCounts exDbC2 exDocC2.userId).counts exDocC2.folder := by
  obtain ⟨_, _, _, _, _, h6, h7, h8, _⟩ :=
    delete_document_effect exDbC2 ⟨"u", "u"⟩ exDocC2
      (List.pairwise_singleton _ _) (by decide) (Or.inr (Or.inl rfl))
  exact ⟨h6, h7, h8⟩

/-- Document owned by user `v`, used to exhibit the missing ownership check. -/
def exDocC10 : Document :=
  { id := 1, userId := "v", folder := "Lainnya", fileName := "g", originalFileName := "g",
    uploadDate := 0, fileData := some [1, 2], mimeType := "t", fileSize := some 2 }

/-- Store containing only `exDocC10`. -/
def exDbC10 : DB := { users := [], documents := [exDocC10], nextDocId := 2 }

/-- C10 (implicit): document deletion is not scoped to the logged-in user —
the result of `handleDeleteDocument` is independent of which session user is
logged in, it removes the record with the given primary key from the
documents table unconditionally, and in particular a stored record whose
`userId` differs from the session user's id is removed all the same: no
ownership check occurs. -/
theorem delete_not_scoped_to_user (db : DB) (docId : Nat) (su su' : SessionUser) :
    handleDeleteDocument (some su) docId db = handleDeleteDocument (some su') docId db ∧
    (handleDeleteDocument (some su) docId db).2.documents =
      db.documents.filter (fun x => x.id != docId) ∧
    (∀ d ∈ db.documents, d.id = docId → d.userId ≠ su.id →
      d ∉ (handleDeleteDocument (some su) docId db).2.documents) := by
  refine ⟨rfl, rfl, ?_⟩
  intro d _ hid _ hmem
  exact mem_deleteItemDoc_ne db docId d hmem hid

/-- Witness for C10: user `u` is logged in, the stored document belongs to
user `v`, and the delete by id removes it anyway. -/
theorem delete_not_scoped_to_user_witness :
    exDocC10 ∈ exDbC10.documents ∧
    exDocC10.userId ≠ "u" ∧
    exDocC10 ∉ (handleDeleteDocument (some ⟨"u", "u"⟩) 1 exDbC10).2.documents :=
  ⟨by decide, by decide,
    (delete_not_scoped_to_user exDbC10 1 ⟨"u", "u"⟩ ⟨"u", "u"⟩).2.2 exDocC10
      (by decide) rfl (by decide)⟩

/-! ### Rename (`handleUpdateDocumentName`) — claim C4 -/

/-- Embeds JavaScript `String.prototype.trim`: strips leading and trailing
whitespace. -/
def jsTrim (s : String) : String :=
  String.mk (((s.data.dropWhile Char.isWhitespace).reverse.dropWhile
    Char.isWhitespace).reverse)

/-- Embeds `handleUpdateDocumentName(newFileName)`: rejects (no store write)
when no document is being edited or the trimmed new name is empty
(`!newFileName.trim()`); otherwise writes back
`{ ...editingDoc, fileName: newFileName.trim() }` via `put`. -/
def handleUpdateDocumentName (editingDoc : Option Document) (newFileName : String)
    (db : DB) : Bool × DB :=
  match editingDoc with
  | none => (false, db)
  | some doc =>
    if (jsTrim newFileName).isEmpty then (false, db)
    else
      let updatedDoc := { doc with fileName := jsTrim newFileName }
      (true, updateItemDoc db updatedDoc)

/-- C4 (amended): renaming is rejected, before any store write, exactly when
the trimmed new name is empty (the amendment: the code trims, so a
whitespace-only `newName` is also rejected, and the stored name is the
trimmed `newName`); otherwise the record keyed by the document's id is
replaced by a copy that differs only in `fileName`, with `id`, `userId`,
`folder`, `originalFileName`, `uploadDate`, `fileData`, `mimeType` and
`fileSize` bit-identical, and every other record — and the users table — is
untouched. -/
theorem rename_updates_only_fileName (db : DB) (d : Document) (newName : String)
    (hmem : d ∈ db.documents) :
    (jsTrim newName = "" → handleUpdateDocumentName (some d) newName db = (false, db)) ∧
    (jsTrim newName ≠ "" →
      (handleUpdateDocumentName (some d) newName db).1 = true ∧
      (handleUpdateDocumentName (some d) newName db).2.users = db.users ∧
      (handleUpdateDocumentName (some d) newName db).2.documents.length =
        db.documents.length ∧
      { d with fileName := jsTrim newName } ∈
        (handleUpdateDocumentName (some d) newName db).2.documents ∧
      (∀ x ∈ db.documents, x.id ≠ d.id →
        x ∈ (handleUpdateDocumentName (some d) newName db).2.documents) ∧
      (∀ y ∈ (handleUpdateDocumentName (some d) newName db).2.documents,
        y.id ≠ d.id → y ∈ db.documents) ∧
      (∀ y ∈ (handleUpdateDocumentName (some d) newName db).2.documents, y.id = d.id →
        y.fileName = jsTrim newName ∧ y.userId = d.userId ∧ y.folder = d.folder ∧
        y.originalFileName = d.originalFileName ∧ y.uploadDate = d.uploadDate ∧
        y.fileData = d.fileData ∧ y.mimeType = d.mimeType ∧ y.fileSize = d.fileSize)) := by
  constructor
  · intro ht
    simp [handleUpdateDocumentName, String.isEmpty_iff, ht]
  · intro ht
    have hne : (jsTrim newName).isEmpty = false := by
      rcases h : (jsTrim newName).isEmpty with _ | _
      · rfl
      · exact absurd ((String.isEmpty_iff _).mp h) ht
    have hany : db.documents.any (fun x => x.id == d.id) = true :=
      List.any_eq_true.mpr ⟨d, hmem, by simp⟩
    have hrun : handleUpdateDocumentName (some d) newName db =
        (true,
          { db with
            documents := db.documents.map (fun x =>
              if x.id == d.id then { d with fileName := jsTrim newName } else x) }) := by
      simp only [handleUpdateDocumentName, hne, Bool.false_eq_true, if_false,
        updateItemDoc]
      rw [if_pos hany]
    rw [hrun]
    refine ⟨rfl, rfl, by simp, ?_, ?_, ?_, ?_⟩
    · exact List.mem_map.mpr ⟨d, hmem, by simp⟩
    · intro x hx hne'
      exact List.mem_map.mpr ⟨x, hx, by simp [beq_eq_false_iff_ne.mpr hne']⟩
    · intro y hy hne'
      obtain ⟨x, hx, hxy⟩ := List.mem_map.mp hy
      by_cases hcase : x.id = d.id
      · rw [← hxy] at hne'
        simp [hcase] at hne'
      · have hfalse : (x.id == d.id) = false := beq_eq_false_iff_ne.mpr hcase
        rw [← hxy]
        simp only [hfalse, Bool.false_eq_true, if_false]
        exact hx
    · intro y hy hid
      obtain ⟨x, hx, hxy⟩ := List.mem_map.mp hy
      by_cases hcase : x.id = d.id
      · have hy' : y = { d with fileName := jsTrim newName } := by
          rw [← hxy]
          simp [hcase]
        rw [hy']
        exact ⟨rfl, rfl, rfl, rfl, rfl, rfl, rfl, rfl⟩
      · exfalso
        have hfalse : (x.id == d.id) = false := beq_eq_false_iff_ne.mpr hcase
        rw [← hxy] at hid
        simp only [hfalse, Bool.false_eq_true, if_false] at hid
        exact hcase hid

/-- Document used for the rename counterexample and witness. -/
def exDocC4 : Document :=
  { id := 1, userId := "u", folder := "Pribadi", fileName := "d1", originalFileName := "o",
    uploadDate := 0, fileData := some [1], mimeType := "t", fileSize := some 1 }

/-- Store containing only `exDocC4`. -/
def exDbC4 : DB := { users := [], documents := [exDocC4], nextDocId := 2 }

/-- Counterexample to C4 as stated: the new name `" "` is non-empty, yet the
rename is rejected and the store is unchanged (the code tests the *trimmed*
name); and for the non-empty name `" a "` the stored `fileName` becomes the
trimmed `"a"`, not the supplied `" a "`. -/
theorem rename_claim_counterexample :
    (" " : String) ≠ "" ∧
    handleUpdateDocumentName (some exDocC4) " " exDbC4 = (false, exDbC4) ∧
    handleUpdateDocumentName (some exDocC4) " a " exDbC4 =
      (true, DB.mk [] [{ exDocC4 with fileName := "a" }] 2) ∧
    ("a" : String) ≠ " a " := by
  refine ⟨by decide, ?_, ?_, by decide⟩
  · decide
  · decide

/-- Witness for C4 at the concrete store `exDbC4` with new name `"b"`. -/
theorem rename_updates_only_fileName_witness :
    (handleUpdateDocumentName (some exDocC4) "b" exDbC4).1 = true ∧
    (handleUpdateDocumentName (some exDocC4) "b" exDbC4).2.users = exDbC4.users ∧
    (handleUpdateDocumentName (some exDocC4) "b" exDbC4).2.documents.length =
      exDbC4.documents.length ∧
    { exDocC4 with fileName := jsTrim "b" } ∈
      (handleUpdateDocumentName (some exDocC4) "b" exDbC4).2.documents := by
  obtain ⟨h1, h2, h3, h4, _⟩ :=
    (rename_updates_only_fileName exDbC4 exDocC4 "b" (by decide)).2 (by decide)
  exact ⟨h1, h2, h3, h4⟩

/-! ### Upload (`handleUploadDocument`) — claim C9 -/

/-- A file selected in the upload form: its metadata, the bytes the
`FileReader` would deliver, and whether the asynchronous read completes
(`readOk = false` models a read failure: `onload` never fires, so the
record is never constructed). -/
structure SelectedFile where
  name : String
  fileType : String
  size : Nat
  content : List Nat
  readOk : Bool
deriving DecidableEq, Repr

/-- Outcome of `handleUploadDocument`. -/
inductive UploadResult where
  | validationError
  | readError
  | uploaded (docId : Nat)
deriving DecidableEq, Repr

/-- Embeds `handleUploadDocument`: the guard
`!selectedFile || !newFileName.trim() || !currentFolder || !user` rejects
before any store write (the empty string is falsy, so an empty folder name
is rejected too); then the `FileReader` read runs, and only in its `onload`
is the record built (with `uploadDate: new Date().toISOString()` modelled
as a timestamp parameter) and `addItem`ed. -/
def handleUploadDocument (user : Option SessionUser) (currentFolder : Option String)
    (selectedFile : Option SelectedFile) (newFileName : String) (uploadDate : Nat)
    (db : DB) : UploadResult × DB :=
  match selectedFile, user, currentFolder with
  | some file, some u, some folder =>
    if (jsTrim newFileName).isEmpty || folder.isEmpty then (.validationError, db)
    else if file.readOk then
      let newDoc : Document :=
        { id := 0,
          userId := u.id,
          folder := folder,
          fileName := jsTrim newFileName,
          originalFileName := file.name,
          uploadDate := uploadDate,
          fileData := some file.content,
          mimeType := file.fileType,
          fileSize := some file.size }
      let r := addItemDoc db newDoc
      (.uploaded r.1, r.2)
    else (.readError, db)
  | _, _, _ => (.validationError, db)

/-- C9 (amended): upload is rejected, before any store write, when no file
blob was supplied, no user is logged in, no folder is selected (absent or
the falsy empty string), or the trimmed display name is empty — the
amendment: the code does **not** check that the folder is one of the three
enumerated values, only that it is present; a failed file read also leaves
the store unchanged, and on success exactly one fully-formed record is
appended, so no partial record ever lands in the store. -/
theorem upload_validation_and_atomicity (user : Option SessionUser)
    (currentFolder : Option String) (selectedFile : Option SelectedFile)
    (newFileName : String) (uploadDate : Nat) (db : DB) :
    (selectedFile = none ∨ user = none ∨ currentFolder = none ∨ currentFolder = some "" ∨
        jsTrim newFileName = "" →
      handleUploadDocument user currentFolder selectedFile newFileName uploadDate db =
        (.validationError, db)) ∧
    (∀ file, selectedFile = some file → file.readOk = false →
      (handleUploadDocument user currentFolder selectedFile newFileName uploadDate db).2 =
        db) ∧
    (∀ file u folder, selectedFile = some file → user = some u →
      currentFolder = some folder → file.readOk = true → jsTrim newFileName ≠ "" →
      folder ≠ "" →
      handleUploadDocument user currentFolder selectedFile newFileName uploadDate db =
        (.uploaded db.nextDocId,
          { db with
            documents := db.documents ++
              [{ id := db.nextDocId, userId := u.id, folder := folder,
                 fileName := jsTrim newFileName, originalFileName := file.name,
                 uploadDate := uploadDate, fileData := some file.content,
                 mimeType := file.fileType, fileSize := some file.size }],
            nextDocId := db.nextDocId + 1 })) := by
  refine ⟨?_, ?_, ?_⟩
  · intro h
    rcases selectedFile with _ | file
    · rfl
    rcases user with _ | u
    · rfl
    rcases currentFolder with _ | folder
    · rfl
    rcases h with h | h | h | h | h
    · cases h
    · cases h
    · cases h
    · injection h with h
      subst h
      have he : ("" : String).isEmpty = true := by decide
      simp [handleUploadDocument, he]
    · simp [handleUploadDocument, String.isEmpty_iff, h]
  · intro file hf hro
    subst hf
    rcases user with _ | u
    · rfl
    rcases currentFolder with _ | folder
    · rfl
    by_cases hv : ((jsTrim newFileName).isEmpty || folder.isEmpty) = true
    · simp [handleUploadDocument, hv]
    · simp only [Bool.not_eq_true] at hv
      simp [handleUploadDocument, hv, hro]
  · intro file u folder hf hu hfo hro hname hfolder
    subst hf
    subst hu
    subst hfo
    have h1 : (jsTrim newFileName).isEmpty = false := by
      rcases h : (jsTrim newFileName).isEmpty with _ | _
      · rfl
      · exact absurd ((String.isEmpty_iff _).mp h) hname
    have h2 : folder.isEmpty = false := by
      rcases h : folder.isEmpty with _ | _
      · rfl
      · exact absurd ((String.isEmpty_iff _).mp h) hfolder
    simp [handleUploadDocument, h1, h2, hro, addItemDoc]

/-- File used for the upload counterexample and witness. -/
def exFileC9 : SelectedFile :=
  { name := "o.txt", fileType := "text/plain", size := 2, content := [10, 20], readOk := true }

/-- Counterexample to C9 as stated: the folder `"Dokumen"` is not one of the
three enumerated values, yet the upload is not rejected — a record carrying
that folder is written to the store. -/
theorem upload_folder_not_validated_counterexample :
    ("Dokumen" ∉ (["Pendidikan", "Pribadi", "Lainnya"] : List String)) ∧
    handleUploadDocument (some ⟨"u", "u"⟩) (some "Dokumen") (some exFileC9) "nm" 7
        (DB.mk [] [] 1) =
      (.uploaded 1,
        DB.mk [] [⟨1, "u", "Dokumen", "nm", "o.txt", 7, some [10, 20], "text/plain", some 2⟩]
          2) := by
  exact ⟨by decide, by decide⟩

/-- Witness for C9 (the success branch) at a concrete upload into folder
`Pribadi`. -/
theorem upload_validation_and_atomicity_witness :
    handleUploadDocument (some ⟨"u", "u"⟩) (some "Pribadi") (some exFileC9) "nm" 7
        (DB.mk [] [] 1) =
      (.uploaded 1,
        DB.mk []
          [⟨1, "u", "Pribadi", jsTrim "nm", "o.txt", 7, some [10, 20], "text/plain", some 2⟩]
          2) := by
  have h :=
    (upload_validation_and_atomicity (some ⟨"u", "u"⟩) (some "Pribadi") (some exFileC9)
      "nm" 7 (DB.mk [] [] 1)).2.2 exFileC9 ⟨"u", "u"⟩ "Pribadi" rfl rfl rfl rfl
      (by decide) (by decide)
  exact h

/-! ### Pure sorting and filtering (`filteredDocuments`,
`sortedAndFilteredDocuments`) — claim C5 -/

/-- Embeds JavaScript `String.prototype.toLowerCase` on the ASCII range
(the folder names, queries and file names of this app). -/
def jsToLower (s : String) : String :=
  String.mk (s.data.map Char.toLower)

/-- Embeds JavaScript `String.prototype.includes`: `sub` occurs
contiguously inside the receiver. -/
def charsIncludes (sub : List Char) : List Char → Bool
  | [] => sub.isEmpty
  | c :: rest => sub.isPrefixOf (c :: rest) || charsIncludes sub rest

/-- Embeds `doc.fileName.toLowerCase().includes(searchQuery.toLowerCase())`. -/
def matchesQuery (searchQuery : String) (doc : Document) : Bool :=
  charsIncludes (jsToLower searchQuery).data (jsToLower doc.fileName).data

/-- Embeds `documents.filter(doc => ...)`. -/
def filteredDocuments (documents : List Document) (searchQuery : String) : List Document :=
  documents.filter (fun doc => matchesQuery searchQuery doc)

/-- The `sortKey` state: `'uploadDate'` or `'fileName'`. -/
inductive SortKey where
  | uploadDate
  | fileName
deriving DecidableEq, Repr

/-- The `sortOrder` state: `'asc'` or `'desc'`. -/
inductive SortOrder where
  | asc
  | desc
deriving DecidableEq, Repr

/-- Embeds the JavaScript `<` comparison on strings (here, on their char
lists): strict code-point lexicographic order. -/
def charListLtb : List Char → List Char → Bool
  | _, [] => false
  | [], _ :: _ => true
  | a :: as, b :: bs =>
    if a.toNat < b.toNat then true
    else if b.toNat < a.toNat then false
    else charListLtb as bs

/-- Non-strict companion of `charListLtb`: `x ≤ y` iff `¬ (y < x)`. -/
def charListLe (x y : List Char) : Prop := charListLtb y x = false

theorem charListLtb_irrefl : ∀ l : List Char, charListLtb l l = false := by
  intro l
  induction l with
  | nil => rfl
  | cons a as ih =>
    simp only [charListLtb]
    rw [if_neg (Nat.lt_irrefl _), if_neg (Nat.lt_irrefl _)]
    exact ih

theorem charListLtb_asymm : ∀ x y : List Char,
    charListLtb x y = true → charListLtb y x = false := by
  intro x
  induction x with
  | nil =>
    intro y hxy
    cases y with
    | nil => simp [charListLtb] at hxy
    | cons b bs => rfl
  | cons a as ih =>
    intro y hxy
    cases y with
    | nil => simp [charListLtb] at hxy
    | cons b bs =>
      simp only [charListLtb] at hxy ⊢
      by_cases h1 : a.toNat < b.toNat
      · rw [if_neg (Nat.lt_asymm h1), if_pos h1]
      · rw [if_neg h1] at hxy
        by_cases h2 : b.toNat < a.toNat
        · rw [if_pos h2] at hxy
          cases hxy
        · rw [if_neg h2] at hxy
          rw [if_neg h2, if_neg h1]
          exact ih bs hxy

theorem charListLtb_trans : ∀ x y z : List Char,
    charListLtb x y = true → charListLtb y z = true → charListLtb x z = true := by
  intro x
  induction x with
  | nil =>
    intro y z hxy hyz
    cases y with
    | nil => simp [charListLtb] at hxy
    | cons b bs =>
      cases z with
      | nil => simp [charListLtb] at hyz
      | cons c cs => rfl
  | cons a as ih =>
    intro y z hxy hyz
    cases y with
    | nil => simp [charListLtb] at hxy
    | cons b bs =>
      cases z with
      | nil => simp [charListLtb] at hyz
      | cons c cs =>
        simp only [charListLtb] at hxy hyz ⊢
        by_cases h1 : a.toNat < b.toNat
        · by_cases h2 : b.toNat < c.toNat
          · rw [if_pos (Nat.lt_trans h1 h2)]
          · rw [if_neg h2] at hyz
            by_cases h3 : c.toNat < b.toNat
            · rw [if_pos h3] at hyz
              cases hyz
            · rw [if_pos (show a.toNat < c.toNat by omega)]
        · rw [if_neg h1] at hxy
          by_cases h1' : b.toNat < a.toNat
          · rw [if_pos h1'] at hxy
            cases hxy
          · rw [if_neg h1'] at hxy
            by_cases h2 : b.toNat < c.toNat
            · rw [if_pos (show a.toNat < c.toNat by omega)]
            · rw [if_neg h2] at hyz
              by_cases h3 : c.toNat < b.toNat
              · rw [if_pos h3] at hyz
                cases hyz
              · rw [if_neg h3] at hyz
                rw [if_neg (show ¬ a.toNat < c.toNat by omega),
                  if_neg (show ¬ c.toNat < a.toNat by omega)]
                exact ih bs cs hxy hyz

theorem charListLe_trans : ∀ x y z : List Char,
    charListLe x y → charListLe y z → charListLe x z := by
  have key : ∀ x y z : List Char, charListLtb y x = false → charListLtb z y = false →
      charListLtb z x = false := by
    intro x
    induction x with
    | nil =>
      intro y z _ _
      cases z with
      | nil => rfl
      | cons c cs => rfl
    | cons a as ih =>
      intro y z hyx hzy
      cases y with
      | nil => simp [charListLtb] at hyx
      | cons b bs =>
        cases z with
        | nil => simp [charListLtb] at hzy
        | cons c cs =>
          simp only [charListLtb] at hyx hzy ⊢
          by_cases h1 : b.toNat < a.toNat
          · rw [if_pos h1] at hyx
            cases hyx
          · rw [if_neg h1] at hyx
            by_cases h2 : c.toNat < b.toNat
            · rw [if_pos h2] at hzy
              cases hzy
            · rw [if_neg h2] at hzy
              by_cases h3 : c.toNat < a.toNat
              · exact absurd h3 (by omega)
              · rw [if_neg h3]
                by_cases h4 : a.toNat < c.toNat
                · rw [if_pos h4]
                · rw [if_neg h4]
                  rw [if_neg (show ¬ a.toNat < b.toNat by omega)] at hyx
                  rw [if_neg (show ¬ b.toNat < c.toNat by omega)] at hzy
                  exact ih bs cs hyx hzy
  intro x y z h1 h2
  exact key x y z h1 h2

/-- Embeds the comparator passed to `.sort(...)` (the variant's explicit
one; the other file delegates the `fileName` case to the locale-dependent
`localeCompare`, which this comparator realises for the specified
case-insensitive comparison): timestamp difference for `uploadDate`,
three-way comparison of lower-cased names for `fileName`, the sign flipped
for descending order. -/
def docCompare (sortKey : SortKey) (sortOrder : SortOrder) (a b : Document) : Int :=
  match sortKey with
  | .uploadDate =>
    match sortOrder with
    | .asc => (a.uploadDate : Int) - (b.uploadDate : Int)
    | .desc => (b.uploadDate : Int) - (a.uploadDate : Int)
  | .fileName =>
    let nameA := jsToLower a.fileName
    let nameB := jsToLower b.fileName
    if charListLtb nameA.data nameB.data then
      match sortOrder with | .asc => -1 | .desc => 1
    else if charListLtb nameB.data nameA.data then
      match sortOrder with | .asc => 1 | .desc => -1
    else 0

/-- The non-strict order induced by the comparator: `compare(a, b) ≤ 0`. -/
def docLe (k : SortKey) (o : SortOrder) (a b : Document) : Prop :=
  docCompare k o a b ≤ 0

instance docLeDecidable (k : SortKey) (o : SortOrder) : DecidableRel (docLe k o) :=
  fun a b => inferInstanceAs (Decidable (docCompare k o a b ≤ 0))

/-- Embeds `[...filteredDocuments].sort(comparator)`: `Array.prototype.sort`
is stable (ES2019), and for a consistent comparator the stable sorted
result is unique, so it is realised by insertion sort with the non-strict
comparator order. -/
def sortedAndFilteredDocuments (documents : List Document) (searchQuery : String)
    (sortKey : SortKey) (sortOrder : SortOrder) : List Document :=
  List.insertionSort (docLe sortKey sortOrder) (filteredDocuments documents searchQuery)

/-- The sort keys in the words of the spec: ascending/descending timestamp
order for `uploadDate`, ascending/descending case-insensitive
lexicographic order for `fileName`. -/
def specKeyLe (k : SortKey) (o : SortOrder) (a b : Document) : Prop :=
  match k, o with
  | .uploadDate, .asc => a.uploadDate ≤ b.uploadDate
  | .uploadDate, .desc => b.uploadDate ≤ a.uploadDate
  | .fileName, .asc =>
    charListLe (jsToLower a.fileName).data (jsToLower b.fileName).data
  | .fileName, .desc =>
    charListLe (jsToLower b.fileName).data (jsToLower a.fileName).data

theorem docLe_iff_specKeyLe (k : SortKey) (o : SortOrder) (a b : Document) :
    docLe k o a b ↔ specKeyLe k o a b := by
  cases k <;> cases o
  · show (a.uploadDate : Int) - (b.uploadDate : Int) ≤ 0 ↔ a.uploadDate ≤ b.uploadDate
    omega
  · show (b.uploadDate : Int) - (a.uploadDate : Int) ≤ 0 ↔ b.uploadDate ≤ a.uploadDate
    omega
  · show (if charListLtb (jsToLower a.fileName).data (jsToLower b.fileName).data then (-1 : Int)
      else if charListLtb (jsToLower b.fileName).data (jsToLower a.fileName).data then 1
      else 0) ≤ 0 ↔
      charListLe (jsToLower a.fileName).data (jsToLower b.fileName).data
    by_cases hab : charListLtb (jsToLower a.fileName).data (jsToLower b.fileName).data = true
    · rw [if_pos hab]
      exact ⟨fun _ => charListLtb_asymm _ _ hab, fun _ => by norm_num⟩
    · rw [Bool.not_eq_true] at hab
      rw [if_neg (by simp [hab])]
      by_cases hba : charListLtb (jsToLower b.fileName).data (jsToLower a.fileName).data = true
      · rw [if_pos hba]
        exact ⟨fun h1 => absurd h1 (by norm_num),
          fun h1 => by rw [h1] at hba; cases hba⟩
      · rw [Bool.not_eq_true] at hba
        rw [if_neg (by simp [hba])]
        exact ⟨fun _ => hba, fun _ => le_refl 0⟩
  · show (if charListLtb (jsToLower a.fileName).data (jsToLower b.fileName).data then (1 : Int)
      else if charListLtb (jsToLower b.fileName).data (jsToLower a.fileName).data then -1
      else 0) ≤ 0 ↔
      charListLe (jsToLower b.fileName).data (jsToLower a.fileName).data
    by_cases hab : charListLtb (jsToLower a.fileName).data (jsToLower b.fileName).data = true
    · rw [if_pos hab]
      exact ⟨fun h1 => absurd h1 (by norm_num),
        fun h1 => by rw [h1] at hab; cases hab⟩
    · rw [Bool.not_eq_true] at hab
      rw [if_neg (by simp [hab])]
      by_cases hba : charListLtb (jsToLower b.fileName).data (jsToLower a.fileName).data = true
      · rw [if_pos hba]
        exact ⟨fun _ => hab, fun _ => by norm_num⟩
      · rw [Bool.not_eq_true] at hba
        rw [if_neg (by simp [hba])]
        exact ⟨fun _ => hab, fun _ => le_refl 0⟩

theorem docLe_total (k : SortKey) (o : SortOrder) (a b : Document) :
    docLe k o a b ∨ docLe k o b a := by
  rw [docLe_iff_specKeyLe, docLe_iff_specKeyLe]
  cases k <;> cases o
  · exact Nat.le_total _ _
  · exact Nat.le_total _ _
  · by_cases h : charListLtb (jsToLower a.fileName).data (jsToLower b.fileName).data = true
    · exact Or.inl (charListLtb_asymm _ _ h)
    · rw [Bool.not_eq_true] at h
      exact Or.inr h
  · by_cases h : charListLtb (jsToLower a.fileName).data (jsToLower b.fileName).data = true
    · exact Or.inr (charListLtb_asymm _ _ h)
    · rw [Bool.not_eq_true] at h
      exact Or.inl h

theorem docLe_trans (k : SortKey) (o : SortOrder) (a b c : Document) :
    docLe k o a b → docLe k o b c → docLe k o a c := by
  rw [docLe_iff_specKeyLe, docLe_iff_specKeyLe, docLe_iff_specKeyLe]
  cases k <;> cases o
  · exact fun h1 h2 => Nat.le_trans h1 h2
  · exact fun h1 h2 => Nat.le_trans h2 h1
  · exact fun h1 h2 => charListLe_trans _ _ _ h1 h2
  · exact fun h1 h2 => charListLe_trans _ _ _ h2 h1

theorem charsIncludes_iff_infix (sub hay : List Char) :
    charsIncludes sub hay = true ↔ sub <:+: hay := by
  induction hay with
  | nil =>
    show sub.isEmpty = true ↔ _
    rw [List.isEmpty_iff, List.infix_nil]
  | cons c rest ih =>
    show (sub.isPrefixOf (c :: rest) || charsIncludes sub rest) = true ↔ _
    rw [Bool.or_eq_true, List.isPrefixOf_iff_prefix, ih, List.infix_cons_iff]

/-- Rewrites a document's immutable `originalFileName` (used to state that
the search/sort pipeline never consults it). -/
def setOriginalFileName (s : String) (d : Document) : Document :=
  { d with originalFileName := s }

/-- First example document (`b.txt`). -/
def exDocB : Document :=
  ⟨1, "u", "Pribadi", "b.txt", "b.txt", 10, some [1], "t", some 1⟩

/-- Second example document (`A.txt`). -/
def exDocA : Document :=
  ⟨2, "u", "Pribadi", "A.txt", "A.txt", 20, some [1], "t", some 1⟩

/-- Third example document (`c.txt`). -/
def exDocC : Document :=
  ⟨3, "u", "Pribadi", "c.txt", "c.txt", 30, some [1], "t", some 1⟩

/-- The spec's example list `["b.txt", "A.txt", "c.txt"]`. -/
def exDocsC5 : List Document := [exDocB, exDocA, exDocC]

/-- C5: the displayed list is the filtered list (case-insensitive substring
match of the query against `fileName` only — `originalFileName` is never
consulted) stably sorted by the chosen key and order: it is a permutation
of the filtered list, sorted for the spec's key order (case-insensitive
lexicographic on `fileName`, timestamp on `uploadDate`), any run of the
filtered list that is already in key order — in particular any tied pair —
survives as a subsequence (stability), rewriting `originalFileName`
commutes with the whole pipeline, membership is exactly the substring
condition, equal-lowercase queries filter identically, and on
`["b.txt", "A.txt", "c.txt"]` ascending `fileName` order yields
`["A.txt", "b.txt", "c.txt"]` while descending reverses it. -/
theorem sortedAndFilteredDocuments_spec :
    (∀ (docs : List Document) (q : String) (k : SortKey) (o : SortOrder),
      (sortedAndFilteredDocuments docs q k o).Perm (filteredDocuments docs q) ∧
      (sortedAndFilteredDocuments docs q k o).Sorted (specKeyLe k o) ∧
      (∀ d, d ∈ sortedAndFilteredDocuments docs q k o ↔
        d ∈ docs ∧ matchesQuery q d = true) ∧
      (∀ l', l'.Pairwise (specKeyLe k o) → List.Sublist l' (filteredDocuments docs q) →
        List.Sublist l' (sortedAndFilteredDocuments docs q k o)) ∧
      (∀ os, sortedAndFilteredDocuments (docs.map (setOriginalFileName os)) q k o =
        (sortedAndFilteredDocuments docs q k o).map (setOriginalFileName os))) ∧
    (∀ (q : String) (d : Document),
      matchesQuery q d = true ↔ (jsToLower q).data <:+: (jsToLower d.fileName).data) ∧
    (∀ (docs : List Document) (q q' : String), jsToLower q = jsToLower q' →
      filteredDocuments docs q = filteredDocuments docs q') ∧
    (sortedAndFilteredDocuments exDocsC5 "" .fileName .asc).map (fun d => d.fileName) =
      ["A.txt", "b.txt", "c.txt"] ∧
    sortedAndFilteredDocuments exDocsC5 "" .fileName .desc =
      (sortedAndFilteredDocuments exDocsC5 "" .fileName .asc).reverse := by
  refine ⟨?_, ?_, ?_, by decide, by decide⟩
  · intro docs q k o
    haveI : IsTotal Document (docLe k o) := ⟨docLe_total k o⟩
    haveI : IsTrans Document (docLe k o) := ⟨docLe_trans k o⟩
    refine ⟨List.perm_insertionSort _ _, ?_, ?_, ?_, ?_⟩
    · exact (List.sorted_insertionSort (docLe k o) (filteredDocuments docs q)).imp
        (fun h => (docLe_iff_specKeyLe k o _ _).mp h)
    · intro d
      simp [sortedAndFilteredDocuments, List.mem_insertionSort, filteredDocuments,
        List.mem_filter]
    · intro l' hp hsub
      exact List.sublist_insertionSort
        (hp.imp fun h => (docLe_iff_specKeyLe k o _ _).mpr h) hsub
    · intro os
      unfold sortedAndFilteredDocuments
      have hf : filteredDocuments (docs.map (setOriginalFileName os)) q =
          (filteredDocuments docs q).map (setOriginalFileName os) := by
        unfold filteredDocuments
        rw [List.filter_map]
        rfl
      rw [hf]
      exact (List.map_insertionSort (docLe k o) (docLe k o) (setOriginalFileName os)
        (filteredDocuments docs q) (fun a _ b _ => Iff.rfl)).symm
  · intro q d
    exact charsIncludes_iff_infix _ _
  · intro docs q q' hq
    unfold filteredDocuments
    congr 1
    funext doc
    unfold matchesQuery
    rw [hq]

/-- A second document named `A.txt` (different id and `originalFileName`),
to exercise stability on a tie. -/
def exDocA2 : Document :=
  ⟨4, "u", "Pribadi", "A.txt", "zz", 40, some [1], "t", some 1⟩

/-- The list `[A.txt(id 2), A.txt(id 4), c.txt]` used by the stability
witness. -/
def exDocsTie : List Document := [exDocA, exDocA2, exDocC]

/-- Witness for C5: the tied pair of `A.txt` documents keeps its filtered
order inside the sorted output. -/
theorem sortedAndFilteredDocuments_spec_witness :
    List.Sublist [exDocA, exDocA2] (sortedAndFilteredDocuments exDocsTie "" .fileName .asc) :=
  ((sortedAndFilteredDocuments_spec.1 exDocsTie "" .fileName .asc).2.2.2.1
    [exDocA, exDocA2]
    (List.pairwise_pair.mpr
      (show charListLtb (jsToLower exDocA2.fileName).data (jsToLower exDocA.fileName).data =
        false by decide))
    (((List.nil_sublist [exDocC]).cons₂ exDocA2).cons₂ exDocA))

/-! ### Byte-size formatting (`formatBytes`) — claim C6 -/

/-- Decimal digit character (`b.toString(16)`-style rendering restricted to
base 10 digits). -/
def digitChar (d : Nat) : Char := Char.ofNat (48 + d)

/-- Decimal digits of `n`, accumulator style; the fuel is structural so the
kernel can evaluate it (it never runs out when started with `n + 1`). -/
def natDigitsGo : Nat → Nat → List Char → List Char
  | 0, _, acc => acc
  | fuel + 1, n, acc =>
    if n < 10 then digitChar n :: acc
    else natDigitsGo fuel (n / 10) (digitChar (n % 10) :: acc)

/-- Decimal representation of a natural number. -/
def natRepr (n : Nat) : String := String.mk (natDigitsGo (n + 1) n [])

/-- Round-half-up of `100·b / q` over exact arithmetic: the value of
`(bytes / Math.pow(k, i)).toFixed(2)` in hundredths. -/
def toFixedHundredths (b q : Nat) : Nat := (200 * b + q) / (2 * q)

/-- Embeds `parseFloat(x.toFixed(dm))` followed by string interpolation:
renders `h/100` with trailing fractional zeros dropped (at most two decimal
places by construction). -/
def renderHundredths (h : Nat) : String :=
  let ip := h / 100
  let fr := h % 100
  if fr = 0 then natRepr ip
  else if fr % 10 = 0 then natRepr ip ++ "." ++ String.mk [digitChar (fr / 10)]
  else if fr < 10 then natRepr ip ++ "." ++ String.mk ['0', digitChar fr]
  else natRepr ip ++ "." ++ String.mk [digitChar (fr / 10), digitChar (fr % 10)]

/-- The unit list `['Bytes', 'KB', 'MB', 'GB', 'TB']`. -/
def sizes : List String := ["Bytes", "KB", "MB", "GB", "TB"]

/-- Fuel-based base-`b` floor logarithm; equals `Nat.log b`
(`jsLogFloor_eq_log`) and embeds `Math.floor(Math.log(bytes) / Math.log(k))`
in exact real arithmetic. -/
def natLogGo (b : Nat) : Nat → Nat → Nat
  | 0, _ => 0
  | fuel + 1, n => if b ≤ n ∧ 1 < b then natLogGo b fuel (n / b) + 1 else 0

/-- Floor logarithm with enough fuel. -/
def jsLogFloor (b n : Nat) : Nat := natLogGo b (n + 1) n

theorem natLogGo_eq (b : Nat) : ∀ fuel n, n < fuel → natLogGo b fuel n = Nat.log b n := by
  intro fuel
  induction fuel with
  | zero => intro n h; exact absurd h (Nat.not_lt_zero n)
  | succ fuel ih =>
    intro n h
    rw [natLogGo]
    by_cases hc : b ≤ n ∧ 1 < b
    · have hdiv : n / b < n := Nat.div_lt_self (by omega) hc.2
      rw [if_pos hc, ih (n / b) (by omega), ← Nat.log_of_one_lt_of_le hc.2 hc.1]
    · rw [if_neg hc, eq_comm, Nat.log_eq_zero_iff]
      omega

theorem jsLogFloor_eq_log (b n : Nat) : jsLogFloor b n = Nat.log b n :=
  natLogGo_eq b (n + 1) n (Nat.lt_succ_self n)

/-- Embeds `formatBytes(bytes, decimals = 2)`: `'0 Bytes'` for an absent or
zero byte count (`!bytes || bytes === 0`), otherwise the value scaled by
`1024^i` for `i = ⌊log₁₀₂₄ bytes⌋` rendered to at most two decimals,
followed by `sizes[i]` — which is the string `'undefined'` when `i` runs
past the end of the unit list. -/
def formatBytes (bytes : Option Nat) : String :=
  match bytes with
  | none => "0 Bytes"
  | some b =>
    if b = 0 then "0 Bytes"
    else
      let i := jsLogFloor 1024 b
      renderHundredths (toFixedHundredths b (1024 ^ i)) ++ " " ++ sizes.getD i "undefined"

/-- Number of characters after the first `'.'` (0 when there is none). -/
def fracLen (s : String) : Nat :=
  (s.data.dropWhile (fun c => c != '.')).length - 1

theorem digitChar_ne_dot : ∀ d, d < 10 → digitChar d ≠ '.' := by decide

theorem natDigitsGo_ne_dot : ∀ fuel n acc, (∀ c ∈ acc, c ≠ '.') →
    ∀ c ∈ natDigitsGo fuel n acc, c ≠ '.' := by
  intro fuel
  induction fuel with
  | zero => intro n acc hacc c hc; exact hacc c hc
  | succ fuel ih =>
    intro n acc hacc c hc
    rw [natDigitsGo] at hc
    by_cases h : n < 10
    · rw [if_pos h] at hc
      rcases List.mem_cons.mp hc with hc | hc
      · rw [hc]; exact digitChar_ne_dot n h
      · exact hacc c hc
    · rw [if_neg h] at hc
      refine ih (n / 10) (digitChar (n % 10) :: acc) ?_ c hc
      intro c' hc'
      rcases List.mem_cons.mp hc' with hc' | hc'
      · rw [hc']; exact digitChar_ne_dot _ (Nat.mod_lt _ (by omega))
      · exact hacc c' hc'

theorem natRepr_ne_dot (n : Nat) : ∀ c ∈ (natRepr n).data, c ≠ '.' :=
  natDigitsGo_ne_dot (n + 1) n [] (by intro c hc; cases hc)

theorem dropWhile_ne_dot_eq_nil {l : List Char} (h : ∀ c ∈ l, c ≠ '.') :
    l.dropWhile (fun c => c != '.') = [] := by
  induction l with
  | nil => rfl
  | cons a t ih =>
    rw [List.dropWhile_cons, if_pos (by simpa using h a (List.mem_cons_self a t))]
    exact ih (fun c hc => h c (List.mem_cons_of_mem a hc))

theorem dropWhile_append_dot (l₁ l₂ : List Char) (h : ∀ c ∈ l₁, c ≠ '.') :
    (l₁ ++ '.' :: l₂).dropWhile (fun c => c != '.') = '.' :: l₂ := by
  induction l₁ with
  | nil =>
    rw [List.nil_append, List.dropWhile_cons]
    simp
  | cons a t ih =>
    rw [List.cons_append, List.dropWhile_cons,
      if_pos (by simpa using h a (List.mem_cons_self a t))]
    exact ih (fun c hc => h c (List.mem_cons_of_mem a hc))

theorem fracLen_renderHundredths (h : Nat) : fracLen (renderHundredths h) ≤ 2 := by
  unfold renderHundredths fracLen
  by_cases h0 : h % 100 = 0
  · rw [if_pos h0, dropWhile_ne_dot_eq_nil (natRepr_ne_dot _)]
    simp
  · rw [if_neg h0]
    by_cases h10 : h % 100 % 10 = 0
    · rw [if_pos h10]
      have : (natRepr (h / 100) ++ "." ++ String.mk [digitChar (h % 100 / 10)]).data =
          (natRepr (h / 100)).data ++ '.' :: [digitChar (h % 100 / 10)] := by
        simp [String.data_append]
      rw [this, dropWhile_append_dot _ _ (natRepr_ne_dot _)]
      simp
    · rw [if_neg h10]
      by_cases hlt : h % 100 < 10
      · rw [if_pos hlt]
        have : (natRepr (h / 100) ++ "." ++ String.mk ['0', digitChar (h % 100)]).data =
            (natRepr (h / 100)).data ++ '.' :: ['0', digitChar (h % 100)] := by
          simp [String.data_append]
        rw [this, dropWhile_append_dot _ _ (natRepr_ne_dot _)]
        simp
      · rw [if_neg hlt]
        have : (natRepr (h / 100) ++ "." ++
            String.mk [digitChar (h % 100 / 10), digitChar (h % 100 % 10)]).data =
            (natRepr (h / 100)).data ++
              '.' :: [digitChar (h % 100 / 10), digitChar (h % 100 % 10)] := by
          simp [String.data_append]
        rw [this, dropWhile_append_dot _ _ (natRepr_ne_dot _)]
        simp

/-- C6 (amended): for a positive byte count below `1024^5`, `formatBytes`
renders the value scaled by the largest applicable base-1024 unit (so
`1024^i ≤ b < 1024^(i+1)` for the selected index) with at most two decimal
places, and the unit is one of Bytes/KB/MB/GB/TB; zero or absent counts
render as `'0 Bytes'`, `1536` as `'1.5 KB'` and `1048576` as `'1 MB'`.
The amendment: at `1024^5` and beyond the unit index runs past the list
and the code renders the unit as `'undefined'`. -/
theorem formatBytes_correct (b : Nat) (h1 : 0 < b) (h2 : b < 1024 ^ 5) :
    (∃ v u, formatBytes (some b) = v ++ " " ++ u ∧
      u = sizes.getD (Nat.log 1024 b) "undefined" ∧ u ∈ sizes ∧
      1024 ^ Nat.log 1024 b ≤ b ∧ b < 1024 ^ (Nat.log 1024 b + 1) ∧
      fracLen v ≤ 2) ∧
    formatBytes none = "0 Bytes" ∧ formatBytes (some 0) = "0 Bytes" ∧
    formatBytes (some 1536) = "1.5 KB" ∧ formatBytes (some 1048576) = "1 MB" := by
  refine ⟨?_, rfl, rfl, by decide, by decide⟩
  refine ⟨renderHundredths (toFixedHundredths b (1024 ^ jsLogFloor 1024 b)),
    sizes.getD (jsLogFloor 1024 b) "undefined", ?_, ?_, ?_, ?_, ?_, ?_⟩
  · simp only [formatBytes]
    rw [if_neg (by omega)]
  · rw [jsLogFloor_eq_log]
  · rw [jsLogFloor_eq_log]
    have hlt : Nat.log 1024 b < 5 := Nat.log_lt_of_lt_pow (by omega) h2
    have hall : ∀ i, i < 5 → sizes.getD i "undefined" ∈ sizes := by decide
    exact hall _ hlt
  · exact Nat.pow_log_le_self 1024 (by omega)
  · exact Nat.lt_pow_succ_log_self (by norm_num) b
  · exact fracLen_renderHundredths _

/-- Counterexample to C6 as stated: at `1024^5` bytes the selected unit is
not among the five units at all — the rendered string is `'1 undefined'`
(JavaScript `sizes[5]` is `undefined`). -/
theorem formatBytes_claim_counterexample :
    formatBytes (some (1024 ^ 5)) = "1 undefined" ∧
    (sizes.all fun u => !(List.isSuffixOf u.data "1 undefined".data)) = true := by
  exact ⟨by decide, by decide⟩

/-- Witness for C6 at `1536` bytes. -/
theorem formatBytes_correct_witness :
    0 < 1536 ∧ 1536 < 1024 ^ 5 ∧ formatBytes (some 1536) = "1.5 KB" ∧
    formatBytes (some 1048576) = "1 MB" :=
  ⟨by decide, by decide, (formatBytes_correct 1536 (by decide) (by decide)).2.2.2.1,
    (formatBytes_correct 1536 (by decide) (by decide)).2.2.2.2⟩

end DokuMini
